import Mathlib

/-!
Shallow embedding of the VideoConvert pipeline.

Sources embedded here:
- app.py: the job-queue system (conversion_queue, queue_status,
  update_queue_status, process_conversion_queue, MAX_CONCURRENT_CONVERSIONS),
  the CSV column-role detection of process_csv_and_create_video,
  _build_srt_from_scenes, synthesize_speech, and the thumbnail-skip rule of
  render_video_from_assets.
- csv_to_video_ffmpeg.py: synthesize_speech_with_gemini, the scene-timer
  arithmetic and image selection of create_video_from_product_data, the
  compositor stage chaining, and create_srt_file.

Machine text is modelled over List Char (Python str operations are
re-implemented so that concrete instances evaluate in the kernel), durations
over rationals, and the concurrent queue system as a small-step transition
relation with the one worker thread that app.py starts.
-/

/-! ### Python string primitives (re-implemented for kernel reducibility) -/

def isSpaceChar (c : Char) : Bool := c.isWhitespace

def stripChars (l : List Char) : List Char :=
  ((l.dropWhile isSpaceChar).reverse.dropWhile isSpaceChar).reverse

/-- Python str.strip(). -/
def pyStrip (s : String) : String := String.mk (stripChars s.data)

/-- Python str.lower(). -/
def pyLower (s : String) : String := String.mk (s.data.map Char.toLower)

def charsContain : List Char → List Char → Bool
  | [], sub => sub.isEmpty
  | c :: rest, sub => sub.isPrefixOf (c :: rest) || charsContain rest sub

/-- Python substring containment test, the `sub in s` operator. -/
def pyContains (s sub : String) : Bool := charsContain s.data sub.data

/-- Python str.startswith. -/
def pyStartsWith (s p : String) : Bool := p.data.isPrefixOf s.data

/-- Python str.endswith. -/
def pyEndsWith (s p : String) : Bool := p.data.isSuffixOf s.data

/-- Python truthiness of an optional string: None and the empty string are falsy. -/
def pyFalsy : Option String → Bool
  | none => true
  | some s => decide (s = "")

/-! ### Scene Timer (csv_to_video_ffmpeg.create_video_from_product_data, lines 304-313) -/

/-- Python int() applied to a real number: truncation toward zero. -/
def pyInt (x : ℚ) : ℤ := if 0 ≤ x then ⌊x⌋ else ⌈x⌉

/-- num_scenes = max(1, int(audio_duration / duration_per_scene)). -/
def numScenes (audioDuration durationPerScene : ℚ) : ℤ :=
  max 1 (pyInt (audioDuration / durationPerScene))

/-- actual_duration_per_scene = audio_duration / num_scenes. -/
def actualDurationPerScene (audioDuration durationPerScene : ℚ) : ℚ :=
  audioDuration / ((numScenes audioDuration durationPerScene : ℤ) : ℚ)

/-- The list of scene durations: num_scenes scenes, each of the uniform
actual duration. -/
def sceneDurations (audioDuration durationPerScene : ℚ) : List ℚ :=
  List.replicate (numScenes audioDuration durationPerScene).toNat
    (actualDurationPerScene audioDuration durationPerScene)

/-- image_index = min(i, len(image_paths) - 1). -/
def imageIndex (i imageCount : Nat) : Nat := min i (imageCount - 1)

/-- image_path = image_paths[image_index]. -/
def selectedImage (images : List String) (i : Nat) : Option String :=
  images.get? (imageIndex i images.length)

/-! ### Subtitle Timer (csv_to_video_ffmpeg.create_srt_file, lines 461-487) -/

structure SrtCue where
  index : Nat
  startTime : ℚ
  endTime : ℚ
  text : String
deriving DecidableEq

/-- The loop body of create_srt_file: the enumerate position is threaded
through as i; blank sentences are skipped but still consume their time slice
and their enumerate position. The written cue index is i + 1. -/
def srtCuesAux (d : ℚ) : Nat → List String → List SrtCue
  | _, [] => []
  | i, s :: rest =>
    if pyStrip s = "" then srtCuesAux d (i + 1) rest
    else ⟨i + 1, (i : ℚ) * d, ((i : ℚ) + 1) * d, pyStrip s⟩ :: srtCuesAux d (i + 1) rest

/-- create_srt_file on the sentence list obtained from splitting the text:
sentence_duration = total_duration / len(sentences). -/
def srtCues (sentences : List String) (totalDuration : ℚ) : List SrtCue :=
  srtCuesAux (totalDuration / (sentences.length : ℚ)) 0 sentences

/-- create_srt_file at the text level: sentences = text.split('\n\n'). -/
def createSrtFile (text : String) (totalDuration : ℚ) : List SrtCue :=
  let sentences := text.splitOn "\n\n"
  let sentences := if sentences.isEmpty then [text] else sentences
  srtCues sentences totalDuration

/-- The sequence of cue indices written to the SRT file. -/
def srtIndices (sentences : List String) (totalDuration : ℚ) : List Nat :=
  (srtCues sentences totalDuration).map SrtCue.index

/-! ### app.py _build_srt_from_scenes (lines 272-293) -/

/-- One scene object of the render-from-assets request body. -/
structure RenderScene where
  text : Option String
  startTime : Option ℚ
  endTime : Option ℚ
deriving DecidableEq

/-- Python text.replace of the single character newline by a space. -/
def replaceNewlines (s : String) : String :=
  String.mk (s.data.map fun c => if c = '\n' then ' ' else c)

/-- The loop of _build_srt_from_scenes: t is the running clock, idx the next
cue index; idx advances only when a cue is written, t always advances by the
scene duration. A missing duration (IndexError in Python) ends the loop. -/
def buildSrtAux : ℚ → Nat → List RenderScene → List ℚ → List SrtCue
  | _, _, [], _ => []
  | _, _, _ :: _, [] => []
  | t, idx, sc :: rest, d :: drest =>
    let txt := pyStrip (sc.text.getD "")
    if txt = "" then buildSrtAux (t + d) idx rest drest
    else ⟨idx, t, t + d, replaceNewlines txt⟩ :: buildSrtAux (t + d) (idx + 1) rest drest

/-- _build_srt_from_scenes: cues start at index 1 and time 0. -/
def buildSrtFromScenes (scenes : List RenderScene) (durations : List ℚ) : List SrtCue :=
  buildSrtAux 0 1 scenes durations

/-! ### Speech Synthesizer (csv_to_video_ffmpeg.synthesize_speech_with_gemini,
lines 17-99; app.py synthesize_speech, lines 295-382, is structurally identical) -/

/-- An inlineData payload of a response part. -/
structure InlineAudio where
  mimeType : String
  data : String
deriving DecidableEq

/-- One part of a candidate content; inlineData may be absent. -/
structure TtsPart where
  inlineData : Option InlineAudio
deriving DecidableEq

/-- One candidate; parts is none when the candidate has no content/parts keys. -/
structure TtsCandidate where
  parts : Option (List TtsPart)
deriving DecidableEq

/-- One item of the streamed response array; a missing candidates key is the
empty list. -/
structure TtsRespItem where
  candidates : List TtsCandidate
deriving DecidableEq

/-- The inner loop: first part whose inlineData has an audio mime type. -/
def findAudioInParts : List TtsPart → Option String
  | [] => none
  | p :: rest =>
    match p.inlineData with
    | some d => if pyStartsWith d.mimeType "audio/" then some d.data else findAudioInParts rest
    | none => findAudioInParts rest

/-- Per item, only candidates[0] is examined, and only when it has parts. -/
def findAudioInItem (it : TtsRespItem) : Option String :=
  match it.candidates with
  | [] => none
  | c :: _ =>
    match c.parts with
    | some ps => findAudioInParts ps
    | none => none

/-- The outer loop over response items: the first item yielding audio wins. -/
def findAudioData : List TtsRespItem → Option String
  | [] => none
  | it :: rest =>
    match findAudioInItem it with
    | some d => some d
    | none => findAudioData rest

/-- The observable shape of the single HTTP response: its status code, the
parsed error body (outer none = unparseable JSON, inner option = the
error.message field), and the parsed success body (none = unparseable). -/
structure TtsResponse where
  statusCode : Nat
  errorMessage : Option (Option String)
  items : Option (List TtsRespItem)
deriving DecidableEq

/-- Result of one call: how many network requests were issued, the success
flag and the message of the returned pair. -/
structure TtsCallResult where
  requests : Nat
  ok : Bool
  message : String
deriving DecidableEq

/-- synthesize_speech_with_gemini, with the api_key argument, the
GEMINI_API_KEY environment variable and the network response as inputs. -/
def synthesizeSpeechWithGemini (apiKeyArg envKey : Option String)
    (resp : TtsResponse) : TtsCallResult :=
  let key := if pyFalsy apiKeyArg then envKey else apiKeyArg
  if pyFalsy key then ⟨0, false, "GEMINI_API_KEY not set"⟩
  else if resp.statusCode ≠ 200 then
    match resp.errorMessage with
    | some (some m) =>
        ⟨1, false, "Gemini TTS API error: " ++ toString resp.statusCode ++ " - " ++ m⟩
    | some none =>
        ⟨1, false, "Gemini TTS API error: " ++ toString resp.statusCode ++ " - Unknown error"⟩
    | none => ⟨1, false, "Gemini TTS API error: " ++ toString resp.statusCode⟩
  else
    match resp.items with
    | none => ⟨1, false, "Error synthesizing speech: response body is not valid JSON"⟩
    | some items =>
      match findAudioData items with
      | none => ⟨1, false, "No audio data found in response"⟩
      | some _ => ⟨1, true, "Speech synthesized successfully"⟩

/-! ### Media Compositor stage chaining
(csv_to_video_ffmpeg.create_video_from_product_data, lines 343-440) -/

/-- Which intermediate video artifact a path variable refers to. -/
inductive VideoArtifact
  | slideshow
  | subtitled
  | watermarked
deriving DecidableEq

/-- Exit status of each external ffmpeg invocation of the chain. -/
structure StageOutcomes where
  slideshowOk : Bool
  subtitleBurnOk : Bool
  watermarkOk : Bool
  muxOk : Bool
deriving DecidableEq

/-- The stage chain after slideshow assembly: subtitle burn-in falls back to
slideshow_path on failure, watermark falls back to subtitled_path on failure,
the final audio mux is fatal on failure. Returns the video artifact that was
muxed with the audio, or the fatal error message. -/
def composePipeline (showSubtitles : Bool) (fullNarration watermark : String)
    (o : StageOutcomes) : Except String VideoArtifact :=
  if o.slideshowOk = false then Except.error "FFmpeg slideshow creation failed"
  else
    let subtitledArtifact :=
      if showSubtitles = true ∧ fullNarration ≠ "" then
        if o.subtitleBurnOk = true then VideoArtifact.subtitled else VideoArtifact.slideshow
      else VideoArtifact.slideshow
    let watermarkedArtifact :=
      if watermark ≠ "" then
        if o.watermarkOk = true then VideoArtifact.watermarked else subtitledArtifact
      else subtitledArtifact
    if o.muxOk = true then Except.ok watermarkedArtifact
    else Except.error "FFmpeg video and audio combination failed"

/-! ### CSV Row Extractor (app.py process_csv_and_create_video, lines 551-697) -/

/-- The resolved column roles. -/
structure CsvColumns where
  imageColumns : List Nat
  productTitleCol : Option Nat
  productDescriptionCol : Option Nat
  brandCol : Option Nat
  priceCol : Option Nat
deriving DecidableEq

/-- The header scan of process_csv_and_create_video: case-insensitive
substring match, first matching role in the elif chain wins, later headers
overwrite earlier single-column roles, image columns accumulate in order. -/
def findColumnsAux (cols : CsvColumns) (i : Nat) : List String → CsvColumns
  | [] => cols
  | h :: rest =>
    let hl := pyLower h
    let next :=
      if pyContains hl "image" || pyContains hl "url" then
        { cols with imageColumns := cols.imageColumns ++ [i] }
      else if pyContains hl "product title" || pyContains hl "product_title" then
        { cols with productTitleCol := some i }
      else if pyContains hl "product description" || pyContains hl "product_description" then
        { cols with productDescriptionCol := some i }
      else if pyContains hl "brand" then
        { cols with brandCol := some i }
      else if pyContains hl "price" && !pyContains hl "currency" then
        { cols with priceCol := some i }
      else cols
    findColumnsAux next (i + 1) rest

def findColumns (headers : List String) : CsvColumns :=
  findColumnsAux ⟨[], none, none, none, none⟩ 0 headers

/-- Image URLs a row resolves: per image column in column order, in bounds,
stripped, must start with http and must not end in .mp4 (case-insensitive). -/
def resolveImageUrls (imageColumns : List Nat) (row : List String) : List String :=
  imageColumns.filterMap fun c =>
    match row.get? c with
    | none => none
    | some v =>
      let url := pyStrip v
      if pyStartsWith url "http" && !pyEndsWith (pyLower url) ".mp4" then some url
      else none

/-- Reading one optional single-column field of a row, stripped; out of bounds
or an unresolved column yields the empty string. -/
def getField (col : Option Nat) (row : List String) : String :=
  match col with
  | some c =>
    match row.get? c with
    | some v => pyStrip v
    | none => ""
  | none => ""

/-- The per-row product data the extractor hands to video creation. -/
structure ProductRecord where
  title : String
  brand : String
  description : String
  price : String
  imageUrls : List String
deriving DecidableEq

/-- One data row yields a record only when it resolves at least one image
(rows without images are silently skipped). -/
def extractRecord (cols : CsvColumns) (row : List String) : Option ProductRecord :=
  let urls := resolveImageUrls cols.imageColumns row
  if urls.isEmpty then none
  else some
    { title := getField cols.productTitleCol row
      brand := getField cols.brandCol row
      description := getField cols.productDescriptionCol row
      price := getField cols.priceCol row
      imageUrls := urls }

/-- Header-driven extraction of all data rows. -/
def extractRecords (headers : List String) (rows : List (List String)) : List ProductRecord :=
  rows.filterMap (extractRecord (findColumns headers))

/-! ### render_video_from_assets thumbnail rule (app.py, lines 850-853) -/

/-- image_list = images[1:] exactly when len(images) == len(scenes) + 1,
otherwise image_list = images. -/
def chooseImageList (images : List String) (scenes : List RenderScene) : List String :=
  if images.length = scenes.length + 1 then images.drop 1 else images

/-! ### Job Queue Manager (app.py lines 29-127) -/

inductive JobStatus
  | queued
  | processing
  | completed
  | error
deriving DecidableEq

/-- One value of the queue_status dict (update_queue_status, lines 43-62). -/
structure StatusEntry where
  status : JobStatus
  message : String
  downloadUrl : Option String
  filename : Option String
  timestamp : Nat
deriving DecidableEq

/-- One item of conversion_queue (bulk_convert_videos, lines 1078-1083). -/
structure QueueItem where
  fileId : Nat
  inputPath : String
  outputPath : String
  originalFilename : String
deriving DecidableEq

/-- Dictionary lookup in the insertion-ordered association list that models
the queue_status dict. -/
def lookupEntry : List (Nat × StatusEntry) → Nat → Option StatusEntry
  | [], _ => none
  | (k, e) :: rest, id => if id = k then some e else lookupEntry rest id

/-- The update branch of update_queue_status: status is always overwritten;
message, download_url and filename only when the argument is truthy;
timestamp is refreshed. -/
def updateEntry (e : StatusEntry) (status : JobStatus)
    (message downloadUrl filename : Option String) (now : Nat) : StatusEntry :=
  { status := status
    message := if pyFalsy message then e.message else message.getD e.message
    downloadUrl := if pyFalsy downloadUrl then e.downloadUrl else downloadUrl
    filename := if pyFalsy filename then e.filename else filename
    timestamp := now }

/-- In-place update of the entry stored under key k (dict mutation). -/
def mapEntry (k : Nat) (g : StatusEntry → StatusEntry) :
    List (Nat × StatusEntry) → List (Nat × StatusEntry)
  | [] => []
  | (a, e) :: rest => (if a = k then (a, g e) else (a, e)) :: mapEntry k g rest

/-- update_queue_status: insert a fresh entry when file_id is absent,
otherwise update the existing entry in place. -/
def updateQueueStatus (tbl : List (Nat × StatusEntry)) (fileId : Nat)
    (status : JobStatus) (message downloadUrl filename : Option String)
    (now : Nat) : List (Nat × StatusEntry) :=
  if (lookupEntry tbl fileId).isSome then
    mapEntry fileId (fun e => updateEntry e status message downloadUrl filename now) tbl
  else
    tbl ++ [(fileId, ⟨status, message.getD "", downloadUrl, filename, now⟩)]

/-- MAX_CONCURRENT_CONVERSIONS = 2 (app.py line 39). -/
def MAX_CONCURRENT_CONVERSIONS : Nat := 2

/-- Number of entries of the status table currently in processing state. -/
def processingCount (tbl : List (Nat × StatusEntry)) : Nat :=
  (tbl.filter fun p => p.2.status = JobStatus.processing).length

/-- Control point of the single worker thread inside its while loop:
idle is blocked on conversion_queue.get(); fetched holds the dequeued item
before the status write of line 81; markedProcessing is between that write
and the capacity check of lines 84-90; working holds the slot during
convert_webm_to_mp4. -/
inductive WorkerPhase
  | idle
  | fetched (item : QueueItem)
  | markedProcessing (item : QueueItem)
  | working (item : QueueItem)
deriving DecidableEq

/-- The shared module state of app.py: conversion_queue, queue_status, the
items already put on the queue whose line-1086 queued status write has not
yet executed, active_conversions, the worker position and a clock for
timestamps. -/
structure SysState where
  queue : List QueueItem
  pendingRegistrations : List QueueItem
  statusTable : List (Nat × StatusEntry)
  activeConversions : Nat
  worker : WorkerPhase
  clock : Nat
deriving DecidableEq

/-- Startup state: queue empty, queue_status cleared, no active conversions,
the worker blocked on get(). -/
def initState : SysState := ⟨[], [], [], 0, WorkerPhase.idle, 0⟩

/-- The file ids in use anywhere in the system; a fresh uuid4 differs from
all of them. -/
def usedIds (s : SysState) : List Nat :=
  s.statusTable.map Prod.fst ++ s.queue.map QueueItem.fileId ++
    s.pendingRegistrations.map QueueItem.fileId ++
    (match s.worker with
      | WorkerPhase.idle => []
      | WorkerPhase.fetched item => [item.fileId]
      | WorkerPhase.markedProcessing item => [item.fileId]
      | WorkerPhase.working item => [item.fileId])

/-- Interleaved small-step semantics of the queue system. The bulk upload
route is two separate steps, as in the program: put places an item with a
fresh uuid on conversion_queue (line 1078), and registerQueued is the later
update_queue_status(file_id, 'queued', ...) of line 1086 for an item whose
registration is still pending — the worker may run in between. The remaining
steps are the worker loop of process_conversion_queue in program order. -/
inductive SysStep : SysState → SysState → Prop
  | put (s : SysState) (item : QueueItem)
      (hfresh : item.fileId ∉ usedIds s) :
      SysStep s { s with
        queue := s.queue ++ [item]
        pendingRegistrations := s.pendingRegistrations ++ [item] }
  | registerQueued (s : SysState) (item : QueueItem)
      (hpending : item ∈ s.pendingRegistrations) :
      SysStep s { s with
        statusTable := updateQueueStatus s.statusTable item.fileId JobStatus.queued
          (some "Waiting in queue...") none (some item.originalFilename) s.clock
        pendingRegistrations := s.pendingRegistrations.erase item
        clock := s.clock + 1 }
  | fetch (s : SysState) (item : QueueItem) (rest : List QueueItem)
      (hw : s.worker = WorkerPhase.idle) (hq : s.queue = item :: rest) :
      SysStep s { s with queue := rest, worker := WorkerPhase.fetched item }
  | mark (s : SysState) (item : QueueItem)
      (hw : s.worker = WorkerPhase.fetched item) :
      SysStep s { s with
        statusTable := updateQueueStatus s.statusTable item.fileId JobStatus.processing
          (some "Conversion in progress...") none none s.clock
        worker := WorkerPhase.markedProcessing item
        clock := s.clock + 1 }
  | requeue (s : SysState) (item : QueueItem)
      (hw : s.worker = WorkerPhase.markedProcessing item)
      (hcap : MAX_CONCURRENT_CONVERSIONS ≤ s.activeConversions) :
      SysStep s { s with queue := s.queue ++ [item], worker := WorkerPhase.idle }
  | acquire (s : SysState) (item : QueueItem)
      (hw : s.worker = WorkerPhase.markedProcessing item)
      (hcap : s.activeConversions < MAX_CONCURRENT_CONVERSIONS) :
      SysStep s { s with
        activeConversions := s.activeConversions + 1
        worker := WorkerPhase.working item }
  | finishSuccess (s : SysState) (item : QueueItem)
      (hw : s.worker = WorkerPhase.working item) :
      SysStep s { s with
        statusTable := updateQueueStatus s.statusTable item.fileId JobStatus.completed
          (some "Conversion completed successfully")
          (some ("/api/download/" ++ toString item.fileId))
          (some item.originalFilename) s.clock
        activeConversions := s.activeConversions - 1
        worker := WorkerPhase.idle
        clock := s.clock + 1 }
  | finishFailure (s : SysState) (item : QueueItem) (msg : String)
      (hw : s.worker = WorkerPhase.working item) :
      SysStep s { s with
        statusTable := updateQueueStatus s.statusTable item.fileId JobStatus.error
          (some msg) none none s.clock
        activeConversions := s.activeConversions - 1
        worker := WorkerPhase.idle
        clock := s.clock + 1 }

/-- States reachable from startup under any interleaving of enqueues and
worker steps. -/
inductive SysReachable : SysState → Prop
  | init : SysReachable initState
  | step {s t : SysState} : SysReachable s → SysStep s t → SysReachable t

/-- The externally observable status of a job id. -/
def statusOf (s : SysState) (id : Nat) : Option JobStatus :=
  (lookupEntry s.statusTable id).map StatusEntry.status

/-- Outcome of the convert_webm_to_mp4 call as seen by the worker:
a returned (True, msg), a returned (False, msg), or a raised exception. -/
inductive ConvertOutcome
  | success
  | failure (msg : String)
  | raised (msg : String)
deriving DecidableEq

/-- Result of one straight-line pass through the worker loop body. -/
structure IterationResult where
  queue : List QueueItem
  table : List (Nat × StatusEntry)
  active : Nat
  requeued : Bool
deriving DecidableEq

/-- One iteration of the process_conversion_queue loop body (lines 71-119),
as a function of the shared state it reads and writes: dequeue, mark the job
processing, then either requeue at capacity, or take a slot, convert, record
the terminal status and release the slot. -/
def processQueueIteration (queue : List QueueItem) (tbl : List (Nat × StatusEntry))
    (active : Nat) (conv : ConvertOutcome) (now : Nat) : IterationResult :=
  match queue with
  | [] => ⟨[], tbl, active, false⟩
  | item :: rest =>
    let tbl1 := updateQueueStatus tbl item.fileId JobStatus.processing
      (some "Conversion in progress...") none none now
    if MAX_CONCURRENT_CONVERSIONS ≤ active then
      ⟨rest ++ [item], tbl1, active, true⟩
    else
      let tbl2 :=
        match conv with
        | ConvertOutcome.success =>
            updateQueueStatus tbl1 item.fileId JobStatus.completed
              (some "Conversion completed successfully")
              (some ("/api/download/" ++ toString item.fileId))
              (some item.originalFilename) now
        | ConvertOutcome.failure msg =>
            updateQueueStatus tbl1 item.fileId JobStatus.error (some msg) none none now
        | ConvertOutcome.raised msg =>
            updateQueueStatus tbl1 item.fileId JobStatus.error
              (some ("Processing error: " ++ msg)) none none now
      ⟨rest, tbl2, (active + 1) - 1, false⟩

/-- Claim C2 as stated: whenever an iteration of the worker loop takes the
requeue-on-capacity path, the requeued job has not yet been marked
processing. -/
def requeueIsPreProcessing : Prop :=
  ∀ (queue : List QueueItem) (tbl : List (Nat × StatusEntry)) (active : Nat)
    (conv : ConvertOutcome) (now : Nat) (item : QueueItem) (rest : List QueueItem),
    queue = item :: rest →
    (processQueueIteration queue tbl active conv now).requeued = true →
    (lookupEntry (processQueueIteration queue tbl active conv now).table item.fileId).map
      StatusEntry.status ≠ some JobStatus.processing

/-! ### Association-list lemmas for the status table -/


theorem lookupEntry_eq_none_iff (tbl : List (Nat × StatusEntry)) (k : Nat) :
    lookupEntry tbl k = none ↔ k ∉ tbl.map Prod.fst := by
  induction tbl with
  | nil => simp [lookupEntry]
  | cons p t ih =>
    obtain ⟨a, e⟩ := p
    by_cases hka : k = a <;> simp [lookupEntry, hka, ih]

theorem lookupEntry_mapEntry (tbl : List (Nat × StatusEntry)) (k : Nat)
    (g : StatusEntry → StatusEntry) (id : Nat) :
    lookupEntry (mapEntry k g tbl) id =
      if id = k then (lookupEntry tbl k).map g else lookupEntry tbl id := by
  induction tbl with
  | nil => by_cases hik : id = k <;> simp [mapEntry, lookupEntry, hik]
  | cons p t ih =>
    obtain ⟨a, e⟩ := p
    simp only [mapEntry]
    by_cases hak : a = k
    · rw [if_pos hak]
      subst hak
      by_cases hia : id = a
      · subst hia
        simp [lookupEntry]
      · simp [lookupEntry, hia, ih]
    · rw [if_neg hak]
      by_cases hia : id = a
      · subst hia
        simp [lookupEntry, hak, Ne.symm hak]
      · simp [lookupEntry, hia, ih, Ne.symm hak]

theorem lookupEntry_append (tbl₁ tbl₂ : List (Nat × StatusEntry)) (id : Nat) :
    lookupEntry (tbl₁ ++ tbl₂) id =
      match lookupEntry tbl₁ id with
      | some e => some e
      | none => lookupEntry tbl₂ id := by
  induction tbl₁ with
  | nil => simp [lookupEntry]
  | cons p t ih =>
    obtain ⟨a, e⟩ := p
    by_cases hia : id = a <;> simp [lookupEntry, hia, ih]

theorem lookupEntry_updateQueueStatus (tbl : List (Nat × StatusEntry)) (k : Nat)
    (st : JobStatus) (msg du fn : Option String) (now : Nat) (id : Nat) :
    lookupEntry (updateQueueStatus tbl k st msg du fn now) id =
      if id = k then
        some (match lookupEntry tbl k with
          | some e => updateEntry e st msg du fn now
          | none => ⟨st, msg.getD "", du, fn, now⟩)
      else lookupEntry tbl id := by
  unfold updateQueueStatus
  cases hk : lookupEntry tbl k with
  | some e => simp [hk, lookupEntry_mapEntry]
  | none =>
    simp only [hk, Option.isSome_none, Bool.false_eq_true, if_false]
    rw [lookupEntry_append]
    by_cases hik : id = k
    · subst hik
      simp [hk, lookupEntry]
    · cases hid : lookupEntry tbl id <;> simp [hik, lookupEntry, hid]

theorem statusOf_updateQueueStatus (tbl : List (Nat × StatusEntry)) (k : Nat)
    (st : JobStatus) (msg du fn : Option String) (now : Nat) (id : Nat) :
    (lookupEntry (updateQueueStatus tbl k st msg du fn now) id).map StatusEntry.status =
      if id = k then some st else (lookupEntry tbl id).map StatusEntry.status := by
  rw [lookupEntry_updateQueueStatus]
  by_cases hik : id = k
  · cases hk : lookupEntry tbl k <;> simp [hik, hk, updateEntry]
  · simp [hik]

theorem mem_mapEntry {tbl : List (Nat × StatusEntry)} {k : Nat}
    {g : StatusEntry → StatusEntry} {p : Nat × StatusEntry}
    (hp : p ∈ mapEntry k g tbl) :
    (∃ e, (k, e) ∈ tbl ∧ p = (k, g e)) ∨ (p ∈ tbl ∧ p.1 ≠ k) := by
  induction tbl with
  | nil => simp [mapEntry] at hp
  | cons q t ih =>
    obtain ⟨a, e⟩ := q
    simp only [mapEntry] at hp
    by_cases hak : a = k
    · rw [if_pos hak] at hp
      subst hak
      rcases List.mem_cons.mp hp with h | h
      · exact Or.inl ⟨e, by simp, h⟩
      · rcases ih h with ⟨f, hf, hpf⟩ | ⟨hmem, hne⟩
        · exact Or.inl ⟨f, by simp [hf], hpf⟩
        · exact Or.inr ⟨by simp [hmem], hne⟩
    · rw [if_neg hak] at hp
      rcases List.mem_cons.mp hp with h | h
      · exact Or.inr ⟨by simp [h], by simp [h, hak]⟩
      · rcases ih h with ⟨f, hf, hpf⟩ | ⟨hmem, hne⟩
        · exact Or.inl ⟨f, by simp [hf], hpf⟩
        · exact Or.inr ⟨by simp [hmem], hne⟩

theorem mem_updateQueueStatus {tbl : List (Nat × StatusEntry)} {k : Nat}
    {st : JobStatus} {msg du fn : Option String} {now : Nat}
    {p : Nat × StatusEntry} (hp : p ∈ updateQueueStatus tbl k st msg du fn now) :
    (p.1 = k ∧ p.2.status = st) ∨ (p ∈ tbl ∧ p.1 ≠ k) := by
  unfold updateQueueStatus at hp
  by_cases hk : (lookupEntry tbl k).isSome
  · simp only [hk, if_true] at hp
    rcases mem_mapEntry hp with ⟨e, _, hpe⟩ | h
    · left
      subst hpe
      exact ⟨rfl, rfl⟩
    · exact Or.inr h
  · simp only [hk, Bool.false_eq_true, if_false] at hp
    rcases List.mem_append.mp hp with h | h
    · right
      refine ⟨h, fun hpk => ?_⟩
      have hnone : lookupEntry tbl k = none := by
        cases hh : lookupEntry tbl k
        · rfl
        · simp [hh] at hk
      exact (lookupEntry_eq_none_iff tbl k).mp hnone
        (hpk ▸ List.mem_map_of_mem Prod.fst h)
    · left
      rcases List.mem_singleton.mp h with rfl
      exact ⟨rfl, rfl⟩

theorem keys_mapEntry (tbl : List (Nat × StatusEntry)) (k : Nat)
    (g : StatusEntry → StatusEntry) :
    (mapEntry k g tbl).map Prod.fst = tbl.map Prod.fst := by
  induction tbl with
  | nil => simp [mapEntry]
  | cons q t ih =>
    obtain ⟨a, e⟩ := q
    simp only [mapEntry]
    by_cases hak : a = k
    · rw [if_pos hak]
      simp [ih]
    · rw [if_neg hak]
      simp [ih]

theorem keys_updateQueueStatus_nodup {tbl : List (Nat × StatusEntry)} {k : Nat}
    {st : JobStatus} {msg du fn : Option String} {now : Nat}
    (h : (tbl.map Prod.fst).Nodup) :
    ((updateQueueStatus tbl k st msg du fn now).map Prod.fst).Nodup := by
  unfold updateQueueStatus
  by_cases hk : (lookupEntry tbl k).isSome
  · simpa only [hk, if_true, keys_mapEntry] using h
  · have hnone : lookupEntry tbl k = none := by
      cases hh : lookupEntry tbl k
      · rfl
      · simp [hh] at hk
    have hkmem := (lookupEntry_eq_none_iff tbl k).mp hnone
    simp only [hk, Bool.false_eq_true, if_false, List.map_append, List.map_singleton]
    rw [List.nodup_append]
    refine ⟨h, List.nodup_singleton k, ?_⟩
    intro a ha hak
    exact hkmem ((List.mem_singleton.mp hak) ▸ ha)

/-! ### The concurrency invariant of the queue system -/

/-- active_conversions held by the worker at each control point: it owns one
slot exactly while converting. -/
def phaseActive : WorkerPhase → Nat
  | WorkerPhase.working _ => 1
  | _ => 0

/-- The job id whose status entry is allowed to be processing at each worker
control point. -/
def procOwner : WorkerPhase → Option Nat
  | WorkerPhase.markedProcessing item => some item.fileId
  | WorkerPhase.working item => some item.fileId
  | _ => none

/-- Inductive invariant: the active count mirrors the worker phase, every
processing entry belongs to the job the worker currently holds past its
line-81 status write, and status-table keys are unique (fresh uuids). -/
def SysInv (s : SysState) : Prop :=
  s.activeConversions = phaseActive s.worker ∧
  (∀ p ∈ s.statusTable, p.2.status = JobStatus.processing → procOwner s.worker = some p.1) ∧
  (s.statusTable.map Prod.fst).Nodup

theorem sysInv_init : SysInv initState := by
  refine ⟨rfl, ?_, ?_⟩ <;> simp [initState]

theorem sysInv_step {s t : SysState} (hInv : SysInv s) (hst : SysStep s t) : SysInv t := by
  obtain ⟨hact, hown, hnd⟩ := hInv
  cases hst with
  | put item hfresh =>
    exact ⟨hact, hown, hnd⟩
  | registerQueued item hpending =>
    refine ⟨hact, ?_, keys_updateQueueStatus_nodup hnd⟩
    intro p hp hproc
    rcases mem_updateQueueStatus hp with ⟨_, hq⟩ | ⟨hmem, _⟩
    · rw [hq] at hproc
      cases hproc
    · exact hown p hmem hproc
  | fetch item rest hw hq =>
    refine ⟨?_, ?_, hnd⟩
    · rw [hact, hw]
      simp [phaseActive]
    · intro p hp hproc
      have hthis := hown p hp hproc
      rw [hw] at hthis
      simp [procOwner] at hthis
  | mark item hw =>
    refine ⟨?_, ?_, keys_updateQueueStatus_nodup hnd⟩
    · rw [hact, hw]
      simp [phaseActive]
    · intro p hp hproc
      rcases mem_updateQueueStatus hp with ⟨hpk, _⟩ | ⟨hmem, _⟩
      · simp [procOwner, hpk]
      · have hthis := hown p hmem hproc
        rw [hw] at hthis
        simp [procOwner] at hthis
  | requeue item hw hcap =>
    exfalso
    rw [hact, hw] at hcap
    simp [phaseActive, MAX_CONCURRENT_CONVERSIONS] at hcap
  | acquire item hw hcap =>
    refine ⟨?_, ?_, hnd⟩
    · rw [hact, hw]
      simp [phaseActive]
    · intro p hp hproc
      have hthis := hown p hp hproc
      rw [hw] at hthis
      simpa [procOwner] using hthis
  | finishSuccess item hw =>
    refine ⟨?_, ?_, keys_updateQueueStatus_nodup hnd⟩
    · rw [hact, hw]
      simp [phaseActive]
    · intro p hp hproc
      rcases mem_updateQueueStatus hp with ⟨_, hq⟩ | ⟨hmem, hne⟩
      · rw [hq] at hproc
        cases hproc
      · exfalso
        have hthis := hown p hmem hproc
        rw [hw] at hthis
        simp [procOwner] at hthis
        exact hne hthis.symm
  | finishFailure item msg hw =>
    refine ⟨?_, ?_, keys_updateQueueStatus_nodup hnd⟩
    · rw [hact, hw]
      simp [phaseActive]
    · intro p hp hproc
      rcases mem_updateQueueStatus hp with ⟨_, hq⟩ | ⟨hmem, hne⟩
      · rw [hq] at hproc
        cases hproc
      · exfalso
        have hthis := hown p hmem hproc
        rw [hw] at hthis
        simp [procOwner] at hthis
        exact hne hthis.symm

theorem sysInv_reachable {s : SysState} (h : SysReachable s) : SysInv s := by
  induction h with
  | init => exact sysInv_init
  | step _ hst ih => exact sysInv_step ih hst

theorem processingCount_le_one_of_owner (k : Nat) {tbl : List (Nat × StatusEntry)}
    (hnd : (tbl.map Prod.fst).Nodup)
    (hall : ∀ p ∈ tbl, p.2.status = JobStatus.processing → p.1 = k) :
    processingCount tbl ≤ 1 := by
  induction tbl with
  | nil => simp [processingCount]
  | cons p t ih =>
    simp only [List.map_cons, List.nodup_cons] at hnd
    by_cases hp : p.2.status = JobStatus.processing
    · have hk : p.1 = k := hall p (List.mem_cons_self p t) hp
      have hft : (t.filter fun q => q.2.status = JobStatus.processing) = [] := by
        rw [List.filter_eq_nil_iff]
        intro q hq
        simp only [decide_eq_true_eq]
        intro hqproc
        have hqk : q.1 = k := hall q (List.mem_cons_of_mem p hq) hqproc
        have hmem : p.1 ∈ t.map Prod.fst := by
          rw [hk, ← hqk]
          exact List.mem_map_of_mem Prod.fst hq
        exact hnd.1 hmem
      simp [processingCount, List.filter_cons, hp, hft]
    · have hrec := ih hnd.2 fun q hq hqp => hall q (List.mem_cons_of_mem p hq) hqp
      simpa [processingCount, List.filter_cons, hp] using hrec

theorem processingCount_of_sysInv {s : SysState} (h : SysInv s) :
    processingCount s.statusTable ≤ 1 := by
  obtain ⟨_, hown, hnd⟩ := h
  cases howner : procOwner s.worker with
  | none =>
    have hempty : (s.statusTable.filter fun p => p.2.status = JobStatus.processing) = [] := by
      rw [List.filter_eq_nil_iff]
      intro p hp
      simp only [decide_eq_true_eq]
      intro hproc
      have hthis := hown p hp hproc
      rw [howner] at hthis
      cases hthis
    simp [processingCount, hempty]
  | some k =>
    refine processingCount_le_one_of_owner k hnd fun p hp hproc => ?_
    have hthis := hown p hp hproc
    rw [howner] at hthis
    exact (Option.some_inj.mp hthis).symm

/-! ### Claim theorems for the Job Queue Manager -/

/-- Claim C1: in every reachable state of the job queue system with
concurrency cap MAX_CONCURRENT_CONVERSIONS = 2, the number of jobs whose
status-table entry is processing never exceeds the cap of 2, regardless of
enqueue timing (enqueues may interleave with every worker step). -/
theorem queue_processing_cap_invariant (s : SysState) (h : SysReachable s) :
    processingCount s.statusTable ≤ MAX_CONCURRENT_CONVERSIONS := by
  have hle := processingCount_of_sysInv (sysInv_reachable h)
  unfold MAX_CONCURRENT_CONVERSIONS
  omega

/-- Witness for C1: the bound instantiated at the startup state. -/
theorem queue_processing_cap_invariant_witness :
    processingCount initState.statusTable ≤ MAX_CONCURRENT_CONVERSIONS :=
  queue_processing_cap_invariant initState SysReachable.init

/-- Counterexample for claim C2 as stated: the requeue-on-capacity path is
not pre-processing. Concretely, when the worker dequeues job 0 with both
slots taken, the iteration puts the item back on the queue while the status
table already records job 0 as processing. -/
theorem requeue_pre_processing_refuted : ¬ requeueIsPreProcessing := by
  intro h
  have happ := h [⟨0, "in.webm", "out.mp4", "orig.webm"⟩] [] 2 ConvertOutcome.success 0
    ⟨0, "in.webm", "out.mp4", "orig.webm"⟩ [] rfl (by decide)
  exact happ (by decide)

/-- Claim C2 as amended: (1) the worker never moves a status back to queued:
a full pass of the worker loop body never takes an entry from processing to
queued; (2) in the full system, the only step that can take a job from
processing back to queued is the late line-1086 registration write of an
item still pending after its line-1078 put; (3) that revert is reachable:
the worker can dequeue the item and mark it processing between put and the
registration write, which then sets the status back to queued; (4) the
requeue-on-capacity path runs after the job is marked processing: whenever
the worker loop body requeues at capacity, the item goes to the back of the
queue with its status-table entry already processing. -/
theorem processing_never_reverts_and_requeue_post_marking :
    (∀ (queue : List QueueItem) (tbl : List (Nat × StatusEntry)) (active : Nat)
        (conv : ConvertOutcome) (now : Nat) (id : Nat),
        (lookupEntry tbl id).map StatusEntry.status = some JobStatus.processing →
        (lookupEntry (processQueueIteration queue tbl active conv now).table id).map
          StatusEntry.status ≠ some JobStatus.queued) ∧
    (∀ (s t : SysState) (id : Nat), SysStep s t →
        statusOf s id = some JobStatus.processing →
        statusOf t id = some JobStatus.queued →
        ∃ item, item ∈ s.pendingRegistrations ∧ item.fileId = id) ∧
    (∃ s t : SysState, SysReachable s ∧ SysStep s t ∧
        statusOf s 0 = some JobStatus.processing ∧
        statusOf t 0 = some JobStatus.queued) ∧
    (∀ (item : QueueItem) (rest : List QueueItem) (tbl : List (Nat × StatusEntry))
        (active : Nat) (conv : ConvertOutcome) (now : Nat),
        MAX_CONCURRENT_CONVERSIONS ≤ active →
        (processQueueIteration (item :: rest) tbl active conv now).requeued = true ∧
        (processQueueIteration (item :: rest) tbl active conv now).queue = rest ++ [item] ∧
        (lookupEntry (processQueueIteration (item :: rest) tbl active conv now).table
            item.fileId).map StatusEntry.status = some JobStatus.processing) := by
  refine ⟨?_, ?_, ?_, ?_⟩
  · intro queue tbl active conv now id hproc
    cases queue with
    | nil =>
      simp only [processQueueIteration]
      rw [hproc]
      decide
    | cons item rest =>
      by_cases hcap : MAX_CONCURRENT_CONVERSIONS ≤ active
      · simp only [processQueueIteration, if_pos hcap]
        rw [statusOf_updateQueueStatus]
        by_cases hid : id = item.fileId
        · simp [hid]
        · simp only [hid, if_false]
          rw [hproc]
          decide
      · cases conv with
        | success =>
          simp only [processQueueIteration, if_neg hcap]
          rw [statusOf_updateQueueStatus]
          by_cases hid : id = item.fileId
          · simp [hid]
          · simp only [hid, if_false]
            rw [statusOf_updateQueueStatus]
            simp only [hid, if_false]
            rw [hproc]
            decide
        | failure msg =>
          simp only [processQueueIteration, if_neg hcap]
          rw [statusOf_updateQueueStatus]
          by_cases hid : id = item.fileId
          · simp [hid]
          · simp only [hid, if_false]
            rw [statusOf_updateQueueStatus]
            simp only [hid, if_false]
            rw [hproc]
            decide
        | raised msg =>
          simp only [processQueueIteration, if_neg hcap]
          rw [statusOf_updateQueueStatus]
          by_cases hid : id = item.fileId
          · simp [hid]
          · simp only [hid, if_false]
            rw [statusOf_updateQueueStatus]
            simp only [hid, if_false]
            rw [hproc]
            decide
  · intro s t id hst hproc hq
    cases hst with
    | put item hfresh =>
      rw [statusOf] at hproc hq
      rw [hproc] at hq
      simp at hq
    | registerQueued item hpending =>
      by_cases hid : id = item.fileId
      · exact ⟨item, hpending, hid.symm⟩
      · rw [statusOf] at hproc hq
        rw [statusOf_updateQueueStatus] at hq
        simp only [hid, if_false] at hq
        rw [hproc] at hq
        simp at hq
    | fetch item rest hw hqueue =>
      rw [statusOf] at hproc hq
      rw [hproc] at hq
      simp at hq
    | mark item hw =>
      rw [statusOf] at hproc hq
      rw [statusOf_updateQueueStatus] at hq
      by_cases hid : id = item.fileId
      · simp [hid] at hq
      · simp only [hid, if_false] at hq
        rw [hproc] at hq
        simp at hq
    | requeue item hw hcap =>
      rw [statusOf] at hproc hq
      rw [hproc] at hq
      simp at hq
    | acquire item hw hcap =>
      rw [statusOf] at hproc hq
      rw [hproc] at hq
      simp at hq
    | finishSuccess item hw =>
      rw [statusOf] at hproc hq
      rw [statusOf_updateQueueStatus] at hq
      by_cases hid : id = item.fileId
      · simp [hid] at hq
      · simp only [hid, if_false] at hq
        rw [hproc] at hq
        simp at hq
    | finishFailure item msg hw =>
      rw [statusOf] at hproc hq
      rw [statusOf_updateQueueStatus] at hq
      by_cases hid : id = item.fileId
      · simp [hid] at hq
      · simp only [hid, if_false] at hq
        rw [hproc] at hq
        simp at hq
  · refine ⟨⟨[], [⟨0, "in.webm", "out.mp4", "orig.webm"⟩],
        [(0, ⟨JobStatus.processing, "Conversion in progress...", none, none, 0⟩)],
        0, WorkerPhase.markedProcessing ⟨0, "in.webm", "out.mp4", "orig.webm"⟩, 1⟩,
      _, ?_,
      SysStep.registerQueued _ ⟨0, "in.webm", "out.mp4", "orig.webm"⟩ (by decide),
      by decide, by decide⟩
    exact SysReachable.step (SysReachable.step (SysReachable.step SysReachable.init
        (SysStep.put initState ⟨0, "in.webm", "out.mp4", "orig.webm"⟩ (by decide)))
        (SysStep.fetch ⟨[⟨0, "in.webm", "out.mp4", "orig.webm"⟩],
            [⟨0, "in.webm", "out.mp4", "orig.webm"⟩], [], 0, WorkerPhase.idle, 0⟩
          ⟨0, "in.webm", "out.mp4", "orig.webm"⟩ [] rfl rfl))
        (SysStep.mark ⟨[], [⟨0, "in.webm", "out.mp4", "orig.webm"⟩], [], 0,
            WorkerPhase.fetched ⟨0, "in.webm", "out.mp4", "orig.webm"⟩, 0⟩
          ⟨0, "in.webm", "out.mp4", "orig.webm"⟩ rfl)
  · intro item rest tbl active conv now hcap
    refine ⟨?_, ?_, ?_⟩ <;> simp only [processQueueIteration, if_pos hcap]
    rw [statusOf_updateQueueStatus]
    simp

/-- Witness for the amended C2: the requeue conclusion at a concrete state
with both slots taken. -/
theorem processing_never_reverts_and_requeue_post_marking_witness :
    (processQueueIteration [⟨7, "a.webm", "b.mp4", "a.webm"⟩] [] 2
        ConvertOutcome.success 0).requeued = true ∧
    (processQueueIteration [⟨7, "a.webm", "b.mp4", "a.webm"⟩] [] 2
        ConvertOutcome.success 0).queue = [] ++ [⟨7, "a.webm", "b.mp4", "a.webm"⟩] ∧
    (lookupEntry (processQueueIteration [⟨7, "a.webm", "b.mp4", "a.webm"⟩] [] 2
        ConvertOutcome.success 0).table 7).map StatusEntry.status =
      some JobStatus.processing :=
  processing_never_reverts_and_requeue_post_marking.2.2.2
    ⟨7, "a.webm", "b.mp4", "a.webm"⟩ [] [] 2 ConvertOutcome.success 0 (by decide)

/-! ### Claim theorems for the Scene Timer -/

/-- Claim C3: for audio duration D > 0 and nominal per-scene duration n > 0,
the Scene Timer produces num_scenes = max(1, floor(D / n)) scenes, each of
duration D / num_scenes, so the scene durations sum to exactly D; in
particular D = 10 and n = 4 yield 2 scenes of 5.0 seconds. -/
theorem scene_timer_uniform_redistribution (D n : ℚ) (hD : 0 < D) (hn : 0 < n) :
    numScenes D n = max 1 ⌊D / n⌋ ∧
    1 ≤ numScenes D n ∧
    (sceneDurations D n).length = (max 1 ⌊D / n⌋).toNat ∧
    (sceneDurations D n).sum = D ∧
    numScenes 10 4 = 2 ∧
    actualDurationPerScene 10 4 = 5 := by
  have hq : (0 : ℚ) ≤ D / n := le_of_lt (div_pos hD hn)
  have hform : numScenes D n = max 1 ⌊D / n⌋ := by
    rw [numScenes, pyInt, if_pos hq]
  have hone : 1 ≤ numScenes D n := le_max_left _ _
  have hcast : ((numScenes D n).toNat : ℚ) = ((numScenes D n : ℤ) : ℚ) := by
    exact_mod_cast congrArg (fun z : ℤ => (z : ℚ)) (Int.toNat_of_nonneg (by omega))
  have hne : ((numScenes D n : ℤ) : ℚ) ≠ 0 := by
    have : (1 : ℚ) ≤ ((numScenes D n : ℤ) : ℚ) := by exact_mod_cast hone
    linarith
  have hfloor : (⌊(10 : ℚ) / 4⌋ : ℤ) = 2 := by
    rw [Int.floor_eq_iff]
    norm_num
  have hc : numScenes 10 4 = 2 := by
    rw [numScenes, pyInt, if_pos (by norm_num : (0 : ℚ) ≤ 10 / 4), hfloor]
    rw [max_eq_right (by norm_num : (1 : ℤ) ≤ 2)]
  refine ⟨hform, hone, ?_, ?_, hc, ?_⟩
  · rw [sceneDurations, List.length_replicate, hform]
  · rw [sceneDurations, List.sum_replicate, nsmul_eq_mul, hcast,
      actualDurationPerScene, mul_comm, div_mul_cancel₀ D hne]
  · rw [actualDurationPerScene, hc]
    norm_num

/-- Witness for C3 at the concrete spec example D = 10, n = 4. -/
theorem scene_timer_uniform_redistribution_witness :
    numScenes 10 4 = max 1 ⌊(10 : ℚ) / 4⌋ ∧
    1 ≤ numScenes 10 4 ∧
    (sceneDurations 10 4).length = (max 1 ⌊(10 : ℚ) / 4⌋).toNat ∧
    (sceneDurations 10 4).sum = 10 ∧
    numScenes 10 4 = 2 ∧
    actualDurationPerScene 10 4 = 5 :=
  scene_timer_uniform_redistribution 10 4 (by norm_num) (by norm_num)

/-- Claim C4: for every scene index i and non-empty image list, the selected
image is images[min(i, image_count - 1)], the index is strictly below
image_count, and once the scenes outnumber the images the last image
repeats. -/
theorem scene_image_index_in_bounds (images : List String) (i : Nat) (h : images ≠ []) :
    imageIndex i images.length < images.length ∧
    (images.length ≤ i → imageIndex i images.length = images.length - 1) ∧
    (selectedImage images i).isSome := by
  have hlen : 0 < images.length := List.length_pos.mpr h
  have hlt : imageIndex i images.length < images.length := by
    rw [imageIndex]
    rcases le_total i (images.length - 1) with hle | hge
    · rw [min_eq_left hle]
      omega
    · rw [min_eq_right hge]
      omega
  refine ⟨hlt, ?_, ?_⟩
  · intro hi
    rw [imageIndex, min_eq_right (by omega)]
  · rw [selectedImage, List.get?_eq_get hlt]
    simp

/-- Witness for C4: two images, scene index 5 (scenes outnumber images). -/
theorem scene_image_index_in_bounds_witness :
    imageIndex 5 (["a.jpg", "b.jpg"] : List String).length < (["a.jpg", "b.jpg"] : List String).length ∧
    ((["a.jpg", "b.jpg"] : List String).length ≤ 5 →
      imageIndex 5 (["a.jpg", "b.jpg"] : List String).length = (["a.jpg", "b.jpg"] : List String).length - 1) ∧
    (selectedImage ["a.jpg", "b.jpg"] 5).isSome :=
  scene_image_index_in_bounds ["a.jpg", "b.jpg"] 5 (by decide)

/-! ### Claim theorems for the Subtitle Timer -/

theorem srtCuesAux_length (d : ℚ) (k : Nat) (l : List String)
    (hall : ∀ s ∈ l, pyStrip s ≠ "") :
    (srtCuesAux d k l).length = l.length := by
  induction l generalizing k with
  | nil => simp [srtCuesAux]
  | cons s rest ih =>
    have hs : pyStrip s ≠ "" := hall s (List.mem_cons_self s rest)
    have hrest := ih (k + 1) fun q hq => hall q (List.mem_cons_of_mem s hq)
    simp [srtCuesAux, hs, hrest]

theorem srtCuesAux_get (d : ℚ) (k : Nat) (l : List String)
    (hall : ∀ s ∈ l, pyStrip s ≠ "") (j : Nat) (hj : j < l.length) :
    (srtCuesAux d k l).get? j =
      some ⟨k + j + 1, ((k + j : ℕ) : ℚ) * d, (((k + j : ℕ) : ℚ) + 1) * d,
            pyStrip (l.getD j "")⟩ := by
  induction l generalizing k j with
  | nil => simp at hj
  | cons s rest ih =>
    have hs : pyStrip s ≠ "" := hall s (List.mem_cons_self s rest)
    cases j with
    | zero => simp [srtCuesAux, hs, List.getD]
    | succ j =>
      have hj2 : j < rest.length := by simpa using hj
      have hrec := ih (k + 1) (fun q hq => hall q (List.mem_cons_of_mem s hq)) j hj2
      have heq : k + 1 + j = k + (j + 1) := by omega
      rw [heq] at hrec
      simp only [srtCuesAux, hs, if_neg hs, List.get?_cons_succ, List.getD_cons_succ]
      exact hrec

/-- Claim C5: for a fragment list of N ≥ 1 fragments, all non-blank, and a
total duration D > 0, the Subtitle Timer emits exactly N cues; the j-th cue
occupies the uniform slice from j * D/N to (j+1) * D/N, the windows are
contiguous and non-overlapping, the first starts at 0 and the last ends at
D. -/
theorem subtitle_timer_uniform_slices (sentences : List String) (D : ℚ)
    (hne : sentences ≠ []) (hall : ∀ s ∈ sentences, pyStrip s ≠ "") (hD : 0 < D) :
    (srtCues sentences D).length = sentences.length ∧
    (∀ j, j < sentences.length →
      (srtCues sentences D).get? j =
        some ⟨j + 1, (j : ℚ) * (D / (sentences.length : ℚ)),
              ((j : ℚ) + 1) * (D / (sentences.length : ℚ)),
              pyStrip (sentences.getD j "")⟩) ∧
    (∀ j ci cj, (srtCues sentences D).get? j = some ci →
        (srtCues sentences D).get? (j + 1) = some cj → ci.endTime = cj.startTime) ∧
    (∀ j c, (srtCues sentences D).get? j = some c → c.startTime < c.endTime) ∧
    (∃ c, (srtCues sentences D).get? 0 = some c ∧ c.startTime = 0) ∧
    (∃ c, (srtCues sentences D).get? (sentences.length - 1) = some c ∧ c.endTime = D) := by
  have hN : 0 < sentences.length := List.length_pos.mpr hne
  have hNQ : (0 : ℚ) < (sentences.length : ℚ) := by exact_mod_cast hN
  have hNne : ((sentences.length : ℕ) : ℚ) ≠ 0 := ne_of_gt hNQ
  have hd : 0 < D / (sentences.length : ℚ) := div_pos hD hNQ
  have hlen : (srtCues sentences D).length = sentences.length := by
    rw [srtCues]
    exact srtCuesAux_length _ 0 sentences hall
  have hget : ∀ j, j < sentences.length →
      (srtCues sentences D).get? j =
        some ⟨j + 1, (j : ℚ) * (D / (sentences.length : ℚ)),
              ((j : ℚ) + 1) * (D / (sentences.length : ℚ)),
              pyStrip (sentences.getD j "")⟩ := by
    intro j hj
    have h0 := srtCuesAux_get (D / (sentences.length : ℚ)) 0 sentences hall j hj
    rw [srtCues]
    simpa using h0
  refine ⟨hlen, hget, ?_, ?_, ?_, ?_⟩
  · intro j ci cj hci hcj
    obtain ⟨hci_lt, -⟩ := List.get?_eq_some.mp hci
    obtain ⟨hcj_lt, -⟩ := List.get?_eq_some.mp hcj
    rw [hlen] at hci_lt hcj_lt
    rw [hget j hci_lt] at hci
    rw [hget (j + 1) hcj_lt] at hcj
    have hci_eq := Option.some_inj.mp hci
    have hcj_eq := Option.some_inj.mp hcj
    rw [← hci_eq, ← hcj_eq]
    push_cast
    ring
  · intro j c hc
    obtain ⟨hc_lt, -⟩ := List.get?_eq_some.mp hc
    rw [hlen] at hc_lt
    rw [hget j hc_lt] at hc
    rw [← Option.some_inj.mp hc]
    have hlt : (j : ℚ) < (j : ℚ) + 1 := by linarith
    exact mul_lt_mul_of_pos_right hlt hd
  · refine ⟨_, hget 0 hN, ?_⟩
    norm_num
  · refine ⟨_, hget (sentences.length - 1) (by omega), ?_⟩
    show (((sentences.length - 1 : ℕ) : ℚ) + 1) * (D / (sentences.length : ℚ)) = D
    have h1 : 1 ≤ sentences.length := hN
    have heq : (((sentences.length - 1 : ℕ) : ℚ) + 1) = (sentences.length : ℚ) := by
      push_cast [h1]
      ring
    rw [heq, mul_comm, div_mul_cancel₀ D hNne]

/-- Witness for C5: two non-blank fragments over 4 seconds. -/
theorem subtitle_timer_uniform_slices_witness :
    (srtCues ["hello", "world"] 4).length = (["hello", "world"] : List String).length ∧
    (∀ j, j < (["hello", "world"] : List String).length →
      (srtCues ["hello", "world"] 4).get? j =
        some ⟨j + 1, (j : ℚ) * (4 / ((["hello", "world"] : List String).length : ℚ)),
              ((j : ℚ) + 1) * (4 / ((["hello", "world"] : List String).length : ℚ)),
              pyStrip ((["hello", "world"] : List String).getD j "")⟩) ∧
    (∀ j ci cj, (srtCues ["hello", "world"] 4).get? j = some ci →
        (srtCues ["hello", "world"] 4).get? (j + 1) = some cj →
        ci.endTime = cj.startTime) ∧
    (∀ j c, (srtCues ["hello", "world"] 4).get? j = some c → c.startTime < c.endTime) ∧
    (∃ c, (srtCues ["hello", "world"] 4).get? 0 = some c ∧ c.startTime = 0) ∧
    (∃ c, (srtCues ["hello", "world"] 4).get? ((["hello", "world"] : List String).length - 1) =
        some c ∧ c.endTime = 4) :=
  subtitle_timer_uniform_slices ["hello", "world"] 4 (by decide) (by decide) (by norm_num)

theorem srtCuesAux_indices (d : ℚ) (k : Nat) (l : List String)
    (hall : ∀ s ∈ l, pyStrip s ≠ "") :
    (srtCuesAux d k l).map SrtCue.index = List.range' (k + 1) l.length := by
  induction l generalizing k with
  | nil => simp [srtCuesAux]
  | cons s rest ih =>
    have hs : pyStrip s ≠ "" := hall s (List.mem_cons_self s rest)
    have hrest := ih (k + 1) fun q hq => hall q (List.mem_cons_of_mem s hq)
    simp [srtCuesAux, hs, hrest, List.range'_succ]

theorem buildSrtAux_indices (t : ℚ) (idx : Nat) (scenes : List RenderScene)
    (durs : List ℚ) :
    (buildSrtAux t idx scenes durs).map SrtCue.index =
      List.range' idx (buildSrtAux t idx scenes durs).length := by
  induction scenes generalizing t idx durs with
  | nil => simp [buildSrtAux]
  | cons sc rest ih =>
    cases durs with
    | nil => simp [buildSrtAux]
    | cons d drest =>
      by_cases htxt : pyStrip (sc.text.getD "") = ""
      · simp only [buildSrtAux, if_pos htxt]
        exact ih (t + d) idx drest
      · simp only [buildSrtAux, if_neg htxt, List.map_cons, List.length_cons,
          List.range'_succ]
        rw [ih (t + d) (idx + 1) drest]

/-- Counterexample for claim C6 as stated: create_srt_file writes the
enumerate position + 1 as cue index, so a blank fragment in the middle
produces the gapped sequence 1, 3 instead of 1, 2. -/
theorem srt_index_gap_cex :
    srtIndices ["a", " ", "b"] 3 = [1, 3] ∧
    srtIndices ["a", " ", "b"] 3 ≠
      List.range' 1 (srtCues ["a", " ", "b"] (3 : ℚ)).length := by
  constructor
  · decide
  · decide

/-- Claim C6 as amended: cue indices start at 1; in _build_srt_from_scenes
they increment by exactly one per written cue with no gaps even when blank
scenes are interleaved, while in create_srt_file the written index is the
fragment position + 1, which is the gapless sequence 1, 2, ... only when
every fragment is non-blank. -/
theorem srt_index_sequences :
    (∀ (scenes : List RenderScene) (durations : List ℚ),
      (buildSrtFromScenes scenes durations).map SrtCue.index =
        List.range' 1 (buildSrtFromScenes scenes durations).length) ∧
    (∀ (sentences : List String) (D : ℚ), (∀ s ∈ sentences, pyStrip s ≠ "") →
      srtIndices sentences D = List.range' 1 sentences.length) := by
  constructor
  · intro scenes durations
    exact buildSrtAux_indices 0 1 scenes durations
  · intro sentences D hall
    rw [srtIndices, srtCues]
    simpa using srtCuesAux_indices (D / (sentences.length : ℚ)) 0 sentences hall

/-- Witness for the amended C6: a blank middle scene still yields gapless
indices 1, 2 from _build_srt_from_scenes, and an all-non-blank fragment list
yields 1, 2 from create_srt_file. -/
theorem srt_index_sequences_witness :
    (buildSrtFromScenes [⟨some "hi", none, none⟩, ⟨some " ", none, none⟩,
        ⟨some "bye", none, none⟩] [1, 1, 1]).map SrtCue.index =
      List.range' 1 (buildSrtFromScenes [⟨some "hi", none, none⟩, ⟨some " ", none, none⟩,
        ⟨some "bye", none, none⟩] [1, 1, 1]).length ∧
    srtIndices ["a", "b"] 3 = List.range' 1 (["a", "b"] : List String).length :=
  ⟨srt_index_sequences.1 [⟨some "hi", none, none⟩, ⟨some " ", none, none⟩,
      ⟨some "bye", none, none⟩] [1, 1, 1],
   srt_index_sequences.2 ["a", "b"] 3 (by decide)⟩

/-! ### Claim theorems for the Speech Synthesizer -/

/-- Claim C7: the synthesizer fails fast with "GEMINI_API_KEY not set" and
zero network requests when no key is supplied; every call issues at most one
network request; a non-2xx response yields a failure carrying the parsed
provider message; a 200 response without an audio-typed inline part yields
the "No audio data found" failure. -/
theorem tts_error_taxonomy (apiKeyArg envKey : Option String) (resp : TtsResponse) :
    (synthesizeSpeechWithGemini apiKeyArg envKey resp).requests ≤ 1 ∧
    (pyFalsy apiKeyArg = true → pyFalsy envKey = true →
      synthesizeSpeechWithGemini apiKeyArg envKey resp =
        ⟨0, false, "GEMINI_API_KEY not set"⟩) ∧
    (pyFalsy (if pyFalsy apiKeyArg then envKey else apiKeyArg) = false →
      resp.statusCode ≠ 200 →
      ∀ m, resp.errorMessage = some (some m) →
      synthesizeSpeechWithGemini apiKeyArg envKey resp =
        ⟨1, false, "Gemini TTS API error: " ++ toString resp.statusCode ++ " - " ++ m⟩) ∧
    (pyFalsy (if pyFalsy apiKeyArg then envKey else apiKeyArg) = false →
      resp.statusCode = 200 →
      ∀ items, resp.items = some items → findAudioData items = none →
      synthesizeSpeechWithGemini apiKeyArg envKey resp =
        ⟨1, false, "No audio data found in response"⟩) := by
  refine ⟨?_, ?_, ?_, ?_⟩
  · by_cases hkey : pyFalsy (if pyFalsy apiKeyArg then envKey else apiKeyArg) = true
    · simp [synthesizeSpeechWithGemini, hkey]
    · by_cases hcode : resp.statusCode = 200
      · cases hitems : resp.items with
        | none => simp [synthesizeSpeechWithGemini, hkey, hcode, hitems]
        | some items =>
          cases hfind : findAudioData items <;>
            simp [synthesizeSpeechWithGemini, hkey, hcode, hitems, hfind]
      · cases hmsg : resp.errorMessage with
        | none => simp [synthesizeSpeechWithGemini, hkey, hcode, hmsg]
        | some mm =>
          cases mm <;> simp [synthesizeSpeechWithGemini, hkey, hcode, hmsg]
  · intro h1 h2
    have hkey : pyFalsy (if pyFalsy apiKeyArg then envKey else apiKeyArg) = true := by
      simp [h1, h2]
    simp [synthesizeSpeechWithGemini, hkey]
  · intro hkey hcode m hmsg
    simp [synthesizeSpeechWithGemini, hkey, hcode, hmsg]
  · intro hkey hcode items hitems hfind
    simp [synthesizeSpeechWithGemini, hkey, hcode, hitems, hfind]

/-- Witness for C7: a missing key fails fast without touching the network,
and a concrete 500 response surfaces the provider message after one
request. -/
theorem tts_error_taxonomy_witness :
    synthesizeSpeechWithGemini none none ⟨500, some (some "quota exceeded"), none⟩ =
      ⟨0, false, "GEMINI_API_KEY not set"⟩ ∧
    synthesizeSpeechWithGemini none (some "k") ⟨500, some (some "quota exceeded"), none⟩ =
      ⟨1, false, "Gemini TTS API error: " ++ toString (500 : Nat) ++ " - quota exceeded"⟩ :=
  ⟨(tts_error_taxonomy none none ⟨500, some (some "quota exceeded"), none⟩).2.1
      (by decide) (by decide),
   (tts_error_taxonomy none (some "k") ⟨500, some (some "quota exceeded"), none⟩).2.2.1
      (by decide) (by decide) "quota exceeded" rfl⟩

/-! ### Claim theorems for the Media Compositor -/

/-- Claim C8: with the slideshow built and the subtitle burn-in failing, the
job is not aborted: the pipeline muxes the pre-subtitle slideshow artifact
(exactly it, when no watermark is requested) and succeeds whenever the final
mux succeeds; a final mux failure aborts with an error. -/
theorem subtitle_burn_failure_nonfatal (showSubs : Bool) (narr wm : String)
    (o : StageOutcomes) (h1 : o.slideshowOk = true) (h2 : o.subtitleBurnOk = false) :
    (wm = "" →
      composePipeline showSubs narr wm o =
        if o.muxOk = true then Except.ok VideoArtifact.slideshow
        else Except.error "FFmpeg video and audio combination failed") ∧
    (o.muxOk = true → ∃ a, composePipeline showSubs narr wm o = Except.ok a) ∧
    (o.muxOk = false →
      composePipeline showSubs narr wm o =
        Except.error "FFmpeg video and audio combination failed") := by
  refine ⟨?_, ?_, ?_⟩
  · intro hwm
    cases hmux : o.muxOk <;>
      simp [composePipeline, h1, h2, hwm, hmux, ite_self]
  · intro hmux
    simp only [composePipeline, h1, h2, hmux, Bool.true_eq_false, if_false, if_true,
      Bool.false_eq_true, ite_self]
    exact ⟨_, rfl⟩
  · intro hmux
    simp [composePipeline, h1, h2, hmux, ite_self]

/-- Witness for C8: all stages succeed except the subtitle burn, no
watermark: the final artifact is the slideshow muxed with audio. -/
theorem subtitle_burn_failure_nonfatal_witness :
    composePipeline true "some narration" "" ⟨true, false, true, true⟩ =
      if (⟨true, false, true, true⟩ : StageOutcomes).muxOk = true
      then Except.ok VideoArtifact.slideshow
      else Except.error "FFmpeg video and audio combination failed" :=
  (subtitle_burn_failure_nonfatal true "some narration" "" ⟨true, false, true, true⟩
    rfl rfl).1 rfl

/-! ### Claim theorems for the CSV Row Extractor -/

/-- Claim C9: the header row Product Title, Brand, Image URL 1 resolves, by
case-insensitive substring match, to title column 0, brand column 1 and the
single image column 2; the data row Widget, Acme, http://x/img.jpg then
yields exactly one ProductRecord with title Widget, brand Acme and exactly
one resolved image URL. -/
theorem csv_header_roundtrip :
    findColumns ["Product Title", "Brand", "Image URL 1"] =
      ⟨[2], some 0, none, some 1, none⟩ ∧
    extractRecords ["Product Title", "Brand", "Image URL 1"]
        [["Widget", "Acme", "http://x/img.jpg"]] =
      [⟨"Widget", "Acme", "", "", ["http://x/img.jpg"]⟩] := by
  constructor
  · decide
  · decide

/-! ### Claim theorem for the render-from-assets thumbnail rule -/

/-- Claim C10: when the number of provided images equals the number of
scenes plus one, the first image is treated as a thumbnail and dropped, the
remaining images keep their order (frame i comes from images[i + 1]); in
every other case all images are used unchanged. -/
theorem thumbnail_skip_rule (images : List String) (scenes : List RenderScene) :
    (images.length = scenes.length + 1 →
      chooseImageList images scenes = images.drop 1 ∧
      (chooseImageList images scenes).length = scenes.length ∧
      ∀ i, (chooseImageList images scenes).get? i = images.get? (i + 1)) ∧
    (images.length ≠ scenes.length + 1 → chooseImageList images scenes = images) := by
  constructor
  · intro h
    refine ⟨?_, ?_, ?_⟩
    · rw [chooseImageList, if_pos h]
    · rw [chooseImageList, if_pos h, List.length_drop, h]
      omega
    · intro i
      rw [chooseImageList, if_pos h, List.get?_drop, Nat.add_comm]
  · intro h
    rw [chooseImageList, if_neg h]

/-- Witness for C10: a three-image, two-scene request drops the thumbnail;
a two-image, zero-scene request keeps all images. -/
theorem thumbnail_skip_rule_witness :
    chooseImageList ["t.png", "a.png", "b.png"]
        [⟨none, none, none⟩, ⟨none, none, none⟩] =
      (["t.png", "a.png", "b.png"] : List String).drop 1 ∧
    chooseImageList ["a.png", "b.png"] [] = ["a.png", "b.png"] :=
  ⟨((thumbnail_skip_rule ["t.png", "a.png", "b.png"]
      [⟨none, none, none⟩, ⟨none, none, none⟩]).1 (by decide)).1,
   (thumbnail_skip_rule ["a.png", "b.png"] []).2 (by decide)⟩
